import Mathlib

/-!
Shallow embedding of the News_Backend TypeScript services
(`ad.service.ts`, `memo.service.ts`, `user.service.ts`, `utils/url.ts`,
`VideoProcessingService`) and proofs about the behaviour of their
operations.  Database tables are modelled as Lean lists, JS `Date`
values as integer epoch milliseconds, JS numbers as rationals, and
fallible operations as `Except`.
-/

namespace NewsBackend

/-! ## JavaScript string helpers (on `List Char`)

`startsWithL s p` is JS `s.startsWith(p)`, `containsL s p` is JS
`s.includes(p)`, and `replaceFirstL s pat rep` is JS
`s.replace(pat, rep)` with a plain-string pattern (which replaces only
the first occurrence, or returns the string unchanged when the pattern
does not occur). -/

def startsWithL : List Char → List Char → Bool
  | _, [] => true
  | [], _ :: _ => false
  | c :: cs, p :: ps => c == p && startsWithL cs ps

def containsL (s pat : List Char) : Bool :=
  startsWithL s pat ||
    match s with
    | [] => false
    | _ :: cs => containsL cs pat

def replaceFirstL (s pat rep : List Char) : List Char :=
  if startsWithL s pat then rep ++ s.drop pat.length
  else
    match s with
    | [] => []
    | c :: cs => c :: replaceFirstL cs pat rep

/-- JS truthiness of an optional string: `null`/`undefined` and the
empty string are falsy. -/
def jsTruthy : Option String → Bool
  | none => false
  | some s => s ≠ ""

/-! ## The `Ad` record (Prisma `ad` table row, fields used by the service) -/

structure Ad where
  id : String
  title : String
  adType : String
  position : Option String
  status : String
  startDate : Int
  endDate : Int
  impressions : Nat
  clicks : Nat
  isPaid : Bool
  price : Rat
  advertiserId : Option String
deriving DecidableEq, Repr

/-! ## `AdService.checkBookingConflict` (ad.service.ts, lines 858-925)

The Prisma `whereClause` filters on status `ACTIVE`/`PENDING`, the
four-case `OR` of date comparisons, optionally the position (only when
the `position` argument is truthy) and optionally `id != excludeAdId`.
`findFirst` is modelled by `List.find?` over the ad table. -/

/-- The four-case date disjunction built by `checkBookingConflict`:
starts-during, ends-during, contains, contained. -/
def overlapFourCases (qs qe s e : Int) : Bool :=
  (decide (s ≤ qs) && decide (e ≥ qs)) ||
  (decide (s ≤ qe) && decide (e ≥ qe)) ||
  (decide (s ≥ qs) && decide (e ≤ qe)) ||
  (decide (s ≤ qs) && decide (e ≥ qe))

/-- The plain interval-overlap condition
`existing.startDate <= endDate AND existing.endDate >= startDate`. -/
def plainOverlap (qs qe s e : Int) : Bool :=
  decide (s ≤ qe) && decide (e ≥ qs)

/-- One ad matches the `whereClause` of `checkBookingConflict`. -/
def conflictWhereMatches (qs qe : Int) (position : Option String)
    (excludeAdId : Option String) (ad : Ad) : Bool :=
  (ad.status == "ACTIVE" || ad.status == "PENDING") &&
  overlapFourCases qs qe ad.startDate ad.endDate &&
  (if jsTruthy position then ad.position == position else true) &&
  (match excludeAdId with
   | some ex => ad.id != ex
   | none => true)

/-- `AdService.checkBookingConflict`: returns `isConflict` together
with the id and title of the first conflicting ad, if any. -/
def checkBookingConflict (db : List Ad) (startDate endDate : Int)
    (position : Option String) (excludeAdId : Option String) :
    Bool × Option (String × String) :=
  match db.find? (conflictWhereMatches startDate endDate position excludeAdId) with
  | some ad => (true, some (ad.id, ad.title))
  | none => (false, none)

/-! ## Public slot-based `AdService.getAds` (ad.service.ts, lines 64-237)

For a public (no `userId`) request with a `slot` parameter the service
builds a Prisma `where` from the slot maps, fetches all matching ads,
and performs a weighted random selection with weight
`1 / (1 + impressions)` per ad.  `Math.random() * totalWeight` is
modelled by an explicit rational parameter `random`. -/

/-- `slotToTypeMap[slot] || []`. -/
def slotToTypes (slot : String) : List String :=
  if slot == "HEADER" then ["BANNER_TOP"]
  else if slot == "TOP_BANNER" then ["BANNER_TOP", "SLIDER_TOP"]
  else if slot == "SIDEBAR" then ["BANNER_SIDE"]
  else if slot == "INLINE" then ["INLINE"]
  else if slot == "FOOTER" then ["FOOTER"]
  else if slot == "MID_PAGE" then ["INLINE", "BANNER_TOP"]
  else if slot == "BETWEEN_SECTIONS" then ["INLINE", "BANNER_TOP"]
  else if slot == "MOBILE" then ["BANNER_SIDE", "BANNER_TOP", "INLINE"]
  else []

/-- `slotToPositionMap[slot] || [slot]`. -/
def slotToPositions (slot : String) : List String :=
  if slot == "HEADER" then ["HEADER"]
  else if slot == "TOP_BANNER" then ["TOP_BANNER", "HEADER"]
  else if slot == "SIDEBAR" then ["SIDEBAR"]
  else if slot == "INLINE" then ["INLINE", "INLINE_ARTICLE"]
  else if slot == "FOOTER" then ["FOOTER"]
  else if slot == "MID_PAGE" then ["MID_PAGE", "INLINE", "INLINE_ARTICLE"]
  else if slot == "BETWEEN_SECTIONS" then ["BETWEEN_SECTIONS", "INLINE", "INLINE_ARTICLE"]
  else if slot == "MOBILE" then ["MOBILE"]
  else [slot]

/-- One ad matches the `where` built for a public slot query:
status `ACTIVE`, date range covering `now`, the optional `type`
query filter, and the position-or-legacy-type `OR` clause. -/
def slotWhereMatches (slot : String) (now : Int) (qType : Option String)
    (ad : Ad) : Bool :=
  ad.status == "ACTIVE" &&
  decide (ad.startDate ≤ now) && decide (ad.endDate ≥ now) &&
  (if jsTruthy qType then some ad.adType == qType else true) &&
  ((slotToPositions slot).any (fun p => ad.position == some p) ||
   (!(slotToTypes slot).isEmpty &&
    (slotToTypes slot).any (fun t => ad.adType == t) &&
    (ad.position == none || ad.position == some "")))

/-- Weight assigned to an ad by the rotation:
`1 / (1 + ad.impressions)`. -/
def adWeight (ad : Ad) : Rat :=
  1 / (1 + (ad.impressions : Rat))

/-- `totalWeight = weights.reduce((sum, w) => sum + w, 0)`. -/
def totalWeight (ads : List Ad) : Rat :=
  (ads.map adWeight).sum

/-- The selection loop: `random -= weights[i]; if (random <= 0) break`.
Returns the ad at which the loop breaks, or `none` when it runs off
the end of the list. -/
def selectLoop : List Ad → Rat → Option Ad
  | [], _ => none
  | ad :: rest, r =>
      if r - adWeight ad ≤ 0 then some ad else selectLoop rest (r - adWeight ad)

/-- Running sum of the first `i+1` weights of `l`. -/
def runningSum (l : List Ad) (i : Nat) : Rat :=
  ((l.take (i + 1)).map adWeight).sum

/-- Result of a slot-based `getAds` call: the returned ads plus the
`meta` counters. -/
structure SlotResult where
  ads : List Ad
  total : Nat
  page : Nat
  limit : Nat
deriving DecidableEq, Repr

/-- The `slot && !userId` branch of `AdService.getAds`
(ad.service.ts, lines 144-237): filter the ad table by the slot
`where`, pick a weighted random ad (`selectedAd` starts at
`matchingAds[0]`), and return either the single selected ad or, for
`SLIDER`/`SLIDER_TOP`, the first `limit` matching ads. -/
def getAdsSlotPublic (db : List Ad) (slot : String) (now : Int)
    (qType : Option String) (page limit : Nat) (random : Rat) : SlotResult :=
  match db.filter (slotWhereMatches slot now qType) with
  | [] => ⟨[], 0, page, limit⟩
  | a0 :: rest =>
      let matching := a0 :: rest
      let selected := (selectLoop matching random).getD a0
      if selected.adType == "SLIDER" || selected.adType == "SLIDER_TOP" then
        ⟨matching.take limit, matching.length, page, limit⟩
      else
        ⟨[selected], 1, page, limit⟩

/-! ## `AdService.trackImpression` / `trackClick` (ad.service.ts, lines 357-393)

`prisma.ad.update` with an `increment` throws when no row has the
given id, and otherwise increments exactly the one counter.  The GA4
dispatch runs inside `setImmediate` wrapped in `try/catch`, so its
failure is recorded (as a console error) but never propagated; it is
modelled by the `ga4Fails` flag and the `ga4Delivered` output. -/

structure TrackResult where
  db : List Ad
  ga4Delivered : Bool
deriving DecidableEq, Repr

/-- `AdService.trackImpression`. -/
def trackImpression (db : List Ad) (adId : String) (ga4Fails : Bool) :
    Except String TrackResult :=
  if db.any (fun ad => ad.id == adId) then
    .ok ⟨db.map (fun ad =>
          if ad.id == adId then { ad with impressions := ad.impressions + 1 } else ad),
        !ga4Fails⟩
  else
    .error "Record to update not found"

/-- `AdService.trackClick`. -/
def trackClick (db : List Ad) (adId : String) (ga4Fails : Bool) :
    Except String TrackResult :=
  if db.any (fun ad => ad.id == adId) then
    .ok ⟨db.map (fun ad =>
          if ad.id == adId then { ad with clicks := ad.clicks + 1 } else ad),
        !ga4Fails⟩
  else
    .error "Record to update not found"

/-! ## `VideoProcessingService` (video-processing.service.ts)

A media row with its uploader, and an environment recording which of
the external steps of `processVideo` succeed: the file-system lookup,
`extractVideoMetadata`, thumbnail generation, and the final
`prisma.media.update`.  `processVideo` records the sequence of
`processingStatus` values it writes. -/

inductive ProcessingStatus
  | PENDING
  | PROCESSING
  | COMPLETED
  | FAILED
deriving DecidableEq, Repr

structure MediaRecord where
  id : String
  mediaType : String
  url : String
  processingStatus : ProcessingStatus
  uploaderRole : Option String
deriving DecidableEq, Repr

structure VideoEnv where
  fileExists : Bool
  metadataOk : Bool
  thumbnailOk : Bool
  finalUpdateOk : Bool
deriving DecidableEq, Repr

structure ProcessOutcome where
  statusWrites : List ProcessingStatus
  thumbnailWritten : Option String
  result : Except String Unit
deriving Repr

/-- `VideoProcessingService.processVideo`: look the media row up,
reject non-videos, write `PROCESSING`, then run the pipeline; any
throwing step inside the `try` makes the `catch` write `FAILED` and
re-throw, while a thumbnail failure is swallowed (the row is simply
updated without a thumbnail). -/
def processVideo (media : Option MediaRecord) (env : VideoEnv) : ProcessOutcome :=
  match media with
  | none => ⟨[], none, .error "Media not found"⟩
  | some m =>
      if m.mediaType != "VIDEO" then
        ⟨[], none, .error "Media is not a video"⟩
      else if !env.fileExists then
        ⟨[.PROCESSING, .FAILED], none, .error "Video file not found"⟩
      else if !env.metadataOk then
        ⟨[.PROCESSING, .FAILED], none, .error "Metadata extraction failed"⟩
      else if !env.finalUpdateOk then
        ⟨[.PROCESSING, .FAILED], none, .error "Media update failed"⟩
      else
        let canAutoApprove :=
          m.uploaderRole == some "ADMIN" || m.uploaderRole == some "SUPER_ADMIN"
        ⟨[.PROCESSING, if canAutoApprove then .COMPLETED else .PENDING],
         if env.thumbnailOk then some (m.id ++ "-thumb.jpg") else none,
         .ok ()⟩

structure BatchResult where
  processed : List String
  success : Nat
  failed : Nat
deriving DecidableEq, Repr

/-- `VideoProcessingService.processVideos`: a sequential `for` loop
over the ids; each iteration wraps `processVideo` in a `try/catch`
that only bumps the `failed` counter.  The order in which ids were
handled is recorded in `processed`. -/
def processVideos (mediaDb : String → Option MediaRecord)
    (envOf : String → VideoEnv) (mediaIds : List String) : BatchResult :=
  mediaIds.foldl
    (fun acc mediaId =>
      match (processVideo (mediaDb mediaId) (envOf mediaId)).result with
      | .ok _ => ⟨acc.processed ++ [mediaId], acc.success + 1, acc.failed⟩
      | .error _ => ⟨acc.processed ++ [mediaId], acc.success, acc.failed + 1⟩)
    ⟨[], 0, 0⟩

/-! ## `MemoService.deleteMemo` (memo.service.ts, lines 101-136) -/

structure UserRec where
  id : String
  email : String
  name : String
  role : String
  password : String
deriving DecidableEq, Repr

structure Memo where
  id : String
  memoType : String
  message : String
  userId : String
  createdById : String
deriving DecidableEq, Repr

structure MemoDb where
  users : List UserRec
  memos : List Memo
deriving DecidableEq, Repr

/-- `MemoService.deleteMemo`: find the memo, find the requesting
admin, authorize (creator or `SUPER_ADMIN`), then delete. -/
def deleteMemo (db : MemoDb) (memoId adminId : String) : Except String MemoDb :=
  match db.memos.find? (fun m => m.id == memoId) with
  | none => .error "Memo not found"
  | some memo =>
      match db.users.find? (fun u => u.id == adminId) with
      | none => .error "Admin not found"
      | some admin =>
          if memo.createdById != adminId && admin.role != "SUPER_ADMIN" then
            .error "Unauthorized to delete this memo"
          else
            .ok { db with memos := db.memos.filter (fun m => !(m.id == memoId)) }

/-! ## `AdService.createAd` (ad.service.ts, lines 242-323)

Dates are epoch milliseconds; `now.setHours(0,0,0,0)` is modelled by
the parameter `today` (start of the current day).  `Math.ceil` and
`Math.round` on JS numbers are modelled exactly on rationals.
`MIN_AD_DURATION_DAYS`, `MAX_AD_DURATION_DAYS` and `calculateAdPrice`
live in `@/config/ad-pricing` and are passed as parameters; the
validation performed by `createAd` does not depend on their values.
A provided `data.price` that parses to a number is modelled as
`some p`; an absent/empty price as `none` (the `parseFloat` NaN path
throws before any ad is created). -/

/-- JS `Math.round`: round half toward positive infinity. -/
def jsRound (q : Rat) : Int :=
  ⌊q + 1 / 2⌋

structure CreateAdInput where
  title : String
  adType : String
  position : Option String
  startDate : Int
  endDate : Int
  price : Option Rat
deriving DecidableEq, Repr

def MAX_PRICE : Rat := (9999999999 : Rat) / 100

/-- `AdService.createAd`. -/
def createAd (db : List Ad) (minDays maxDays : Int)
    (calculateAdPrice : String → Int → Int → Rat)
    (data : CreateAdInput) (userId : String) (role : Option String)
    (today : Int) : Except String Ad :=
  let start := data.startDate
  let «end» := data.endDate
  if start < today then .error "Start date cannot be in the past"
  else if «end» ≤ start then .error "End date must be after start date"
  else
    let days : Int := ⌈((«end» - start : Int) : Rat) / (1000 * 3600 * 24)⌉
    if days < minDays then .error "Ad duration too short"
    else if days > maxDays then .error "Ad duration too long"
    else if jsTruthy data.position &&
        (checkBookingConflict db start «end» data.position none).1 then
      .error "This date and position are already booked"
    else
      let priceValue : Rat :=
        match data.price with
        | some p => p
        | none => calculateAdPrice data.adType start «end»
      if priceValue < 0 then .error "Price must be a valid positive number"
      else if priceValue > MAX_PRICE then .error "Price cannot exceed the maximum"
      else
        let calculatedPrice : Rat := (jsRound (priceValue * 100) : Rat) / 100
        let isAdmin := role == some "ADMIN" || role == some "SUPER_ADMIN"
        .ok
          { id := "new-ad"
            title := data.title
            adType := data.adType
            position := data.position
            status := if isAdmin then "ACTIVE" else "PENDING"
            startDate := start
            endDate := «end»
            impressions := 0
            clicks := 0
            isPaid := isAdmin
            price := calculatedPrice
            advertiserId := some userId }

/-! ## `utils/url.ts`: `normalizeUrl` and `getAbsoluteUrl`

The configuration values `env.BACKEND_URL` and
`process.env.NODE_ENV === "production"` are passed as parameters.
The regex `^(https?:\/\/[^\/]+)\/(https?:\/\/[^\/]+)(\/.*)$` is
modelled exactly: `[^/]+` takes everything up to the next slash, and
`.` does not match JS line terminators, so a URL containing one after
the second domain does not match. -/

def httpL : List Char := ['h', 't', 't', 'p', ':', '/', '/']

def httpsL : List Char := ['h', 't', 't', 'p', 's', ':', '/', '/']

def prodHostL : List Char :=
  ['n', 'e', 'w', 's', '-', 'b', 'a', 'c', 'k', 'e', 'n', 'd', '.',
   'h', 'm', 's', 't', 'e', 'c', 'h', '.', 'o', 'r', 'g']

def prodDomainL : List Char := httpsL ++ prodHostL

/-- JS line terminators, which `.` in a regex does not match. -/
def isLineTerm (c : Char) : Bool :=
  c == '\n' || c == '\r' || c == Char.ofNat 8232 || c == Char.ofNat 8233

/-- Match `https?:\/\/[^\/]+` at the front of the list, returning the
matched group and the remainder. -/
def parseSchemeDomain (s : List Char) : Option (List Char × List Char) :=
  if startsWithL s httpsL then
    let body := s.drop 8
    let dom := body.takeWhile (fun c => !(c == '/'))
    if dom.isEmpty then none else some (httpsL ++ dom, body.drop dom.length)
  else if startsWithL s httpL then
    let body := s.drop 7
    let dom := body.takeWhile (fun c => !(c == '/'))
    if dom.isEmpty then none else some (httpL ++ dom, body.drop dom.length)
  else none

/-- Match the whole `duplicatePattern` regex, returning the three
groups. -/
def dupMatch (url : List Char) : Option (List Char × List Char × List Char) :=
  match parseSchemeDomain url with
  | none => none
  | some (g1, rest1) =>
      match rest1 with
      | '/' :: afterSlash =>
          match parseSchemeDomain afterSlash with
          | none => none
          | some (g2, rest2) =>
              match rest2 with
              | '/' :: tailChars =>
                  if tailChars.all (fun c => !isLineTerm c) then
                    some (g1, g2, '/' :: tailChars)
                  else none
              | _ => none
      | _ => none

/-- `normalizeUrl` (url.ts): strip one duplicated production-domain
prefix, or one regex-detected duplicated domain. -/
def normalizeUrl (url : List Char) : List Char :=
  if containsL url (prodDomainL ++ ('/' :: prodDomainL)) then
    replaceFirstL url (prodDomainL ++ ['/']) []
  else
    match dupMatch url with
    | some (g1, g2, g3) => if g1 == g2 then g1 ++ g3 else url
    | none => url

/-- `.replace(/\/$/, "")`: drop a single trailing slash. -/
def stripTrailingSlash (s : List Char) : List Char :=
  if s.getLast? == some '/' then s.dropLast else s

/-- The backend base URL actually used for relative inputs: the
trailing-slash-stripped `env.BACKEND_URL`, overridden by the
production domain in production or for localhost-like values, and
upgraded from HTTP to HTTPS when it is the production domain. -/
def backendB0 (backendUrl : String) : List Char :=
  stripTrailingSlash backendUrl.data

/-- The base URL after the forced-production override. -/
def backendB1 (backendUrl : String) (isProduction : Bool) : List Char :=
  if isProduction || (backendB0 backendUrl).isEmpty ||
      containsL (backendB0 backendUrl) "localhost".data ||
      containsL (backendB0 backendUrl) "127.0.0.1".data ||
      startsWithL (backendB0 backendUrl) "http://localhost".data ||
      startsWithL (backendB0 backendUrl) "http://127.0.0.1".data ||
      (containsL (backendB0 backendUrl) prodHostL &&
        startsWithL (backendB0 backendUrl) httpL) then
    prodDomainL
  else backendB0 backendUrl

def backendBase (backendUrl : String) (isProduction : Bool) : List Char :=
  if containsL (backendB1 backendUrl isProduction) prodHostL &&
      startsWithL (backendB1 backendUrl isProduction) httpL then
    replaceFirstL (backendB1 backendUrl isProduction) httpL httpsL
  else backendB1 backendUrl isProduction

/-- `getAbsoluteUrl` (url.ts, lines 111-155): `none` for a falsy
input, otherwise normalize, pass absolute URLs through (upgrading the
production domain to HTTPS), and prefix relative ones with the
backend base URL. -/
def getAbsoluteUrl (backendUrl : String) (isProduction : Bool)
    (relativeUrl : Option String) : Option String :=
  match relativeUrl with
  | none => none
  | some s =>
      if s == "" then none
      else
        let n := normalizeUrl s.data
        if startsWithL n httpL || startsWithL n httpsL then
          let n2 :=
            if containsL n prodHostL && startsWithL n httpL then
              replaceFirstL n httpL httpsL
            else n
          some (String.mk n2)
        else
          let normalizedUrl := if startsWithL n ['/'] then n else '/' :: n
          some (String.mk (backendBase backendUrl isProduction ++ normalizedUrl))

/-! ## `UserService` (user.service.ts)

A stored user row carries the bcrypt `password` hash; the three
operations named by the spec all end with
`const { password: _password, ...userWithoutPassword } = user` and
return the password-free projection (`PublicUser`).  The
`_EditorCategories`-table-missing fallback of `getUserById` is the
shared flag `catTableMissing`; `bcrypt.hash` is an opaque parameter
of `createUser`. -/

structure UserFull where
  id : String
  email : String
  name : String
  role : String
  password : String
  avatar : Option String
  isActive : Bool
  allowedCategories : List String
deriving DecidableEq, Repr

structure PublicUser where
  id : String
  email : String
  name : String
  role : String
  avatar : Option String
  isActive : Bool
  allowedCategories : List String
deriving DecidableEq, Repr

/-- The `...userWithoutPassword` rest-destructuring. -/
def stripPassword (u : UserFull) : PublicUser :=
  ⟨u.id, u.email, u.name, u.role, u.avatar, u.isActive, u.allowedCategories⟩

/-- `UserService.getUserById`. -/
def getUserById (db : List UserFull) (catTableMissing : Bool) (id : String) :
    Except String PublicUser :=
  match db.find? (fun u => u.id == id) with
  | none => .error "User not found"
  | some u =>
      let u := if catTableMissing then { u with allowedCategories := [] } else u
      .ok (stripPassword u)

structure CreateUserInput where
  email : String
  name : String
  role : String
  password : String
  avatar : Option String
  isActive : Bool
  categoryIds : Option (List String)
deriving DecidableEq, Repr

/-- `UserService.createUser`: reject duplicate emails, hash the input
password, verify any provided category ids against the category
table, create the row and return it without the password. -/
def createUser (db : List UserFull) (catDb : List String)
    (hash : String → String) (data : CreateUserInput) :
    Except String PublicUser :=
  if db.any (fun u => u.email == data.email) then
    .error "Email already exists"
  else
    let cats := (data.categoryIds).getD []
    if !cats.isEmpty && !(cats.all (fun c => catDb.contains c)) then
      .error "Some categories not found"
    else
      let user : UserFull :=
        { id := "new-user"
          email := data.email
          name := data.name
          role := data.role
          password := hash data.password
          avatar := data.avatar
          isActive := data.isActive
          allowedCategories := cats }
      .ok (stripPassword user)

structure UpdateUserInput where
  email : Option String
  name : Option String
  role : Option String
  password : Option String
  avatar : Option String
  isActive : Option Bool
  categoryIds : Option (List String)
deriving DecidableEq, Repr

/-- `UserService.updateUser`: verify any provided category ids,
update the row field-by-field (`role` only when truthy, matching
`data.role ? data.role : undefined`), and return it without the
password. -/
def updateUser (db : List UserFull) (catDb : List String) (id : String)
    (data : UpdateUserInput) : Except String PublicUser :=
  match db.find? (fun u => u.id == id) with
  | none => .error "Record to update not found"
  | some u =>
      if (data.categoryIds.getD []).any (fun c => !catDb.contains c) then
        .error "Some categories not found"
      else
        let merged : UserFull :=
          { id := u.id
            email := data.email.getD u.email
            name := data.name.getD u.name
            role := if jsTruthy data.role then data.role.getD u.role else u.role
            password := data.password.getD u.password
            avatar := match data.avatar with
                      | some a => some a
                      | none => u.avatar
            isActive := data.isActive.getD u.isActive
            allowedCategories := data.categoryIds.getD u.allowedCategories }
        .ok (stripPassword merged)

/-- Two stored user rows that agree on everything except (possibly)
the password hash. -/
def samePublic (u v : UserFull) : Prop :=
  stripPassword u = stripPassword v

/-! ## Helper lemmas -/

/-- Whether an `Except` result is a success. -/
def exceptOk : Except String Unit → Bool
  | .ok _ => true
  | .error _ => false

lemma processVideos_foldl (mediaDb : String → Option MediaRecord)
    (envOf : String → VideoEnv) :
    ∀ (ids : List String) (acc : BatchResult),
      ids.foldl
        (fun acc mediaId =>
          match (processVideo (mediaDb mediaId) (envOf mediaId)).result with
          | .ok _ => ⟨acc.processed ++ [mediaId], acc.success + 1, acc.failed⟩
          | .error _ => ⟨acc.processed ++ [mediaId], acc.success, acc.failed + 1⟩)
        acc =
      ⟨acc.processed ++ ids,
       acc.success + ids.countP (fun i => exceptOk (processVideo (mediaDb i) (envOf i)).result),
       acc.failed + ids.countP (fun i => !exceptOk (processVideo (mediaDb i) (envOf i)).result)⟩ := by
  intro ids
  induction ids with
  | nil => intro acc; simp
  | cons x xs ih =>
      intro acc
      rcases hx : (processVideo (mediaDb x) (envOf x)).result with e | u
      · simp only [List.foldl_cons, hx, ih, List.countP_cons]
        simp [exceptOk]
        omega
      · simp only [List.foldl_cons, hx, ih, List.countP_cons]
        simp [exceptOk]
        omega

/-- **C6.** `VideoProcessingService.processVideos` visits the media ids
sequentially in list order (`processed` is exactly the input list, so a
failing id never stops the loop), `success` counts the successful runs
of `processVideo`, `failed` counts the failing ones, and
`success + failed` equals the length of the input list. -/
theorem processVideos_batch (mediaDb : String → Option MediaRecord)
    (envOf : String → VideoEnv) (ids : List String) :
    (processVideos mediaDb envOf ids).processed = ids ∧
    (processVideos mediaDb envOf ids).success =
      ids.countP (fun i => exceptOk (processVideo (mediaDb i) (envOf i)).result) ∧
    (processVideos mediaDb envOf ids).failed =
      ids.countP (fun i => !exceptOk (processVideo (mediaDb i) (envOf i)).result) ∧
    (processVideos mediaDb envOf ids).success + (processVideos mediaDb envOf ids).failed
      = ids.length := by
  have h := processVideos_foldl mediaDb envOf ids ⟨[], 0, 0⟩
  unfold processVideos
  rw [h]
  refine ⟨by simp, by simp, by simp, ?_⟩
  simp [List.length_eq_countP_add_countP
    (fun i => exceptOk (processVideo (mediaDb i) (envOf i)).result) ids]

/-- **C7.** `MemoService.deleteMemo` deletes the memo exactly when the
memo exists, the requesting admin exists, and the requester is the
memo's creator or a `SUPER_ADMIN`; in every other case it throws the
matching error (`"Memo not found"`, `"Admin not found"`,
`"Unauthorized to delete this memo"`) and, the error path returning no
new state, the memo table is untouched. -/
theorem deleteMemo_spec (db : MemoDb) (memoId adminId : String) :
    ((∃ m a, db.memos.find? (fun x => x.id == memoId) = some m ∧
        db.users.find? (fun x => x.id == adminId) = some a ∧
        (m.createdById = adminId ∨ a.role = "SUPER_ADMIN")) →
      deleteMemo db memoId adminId =
        .ok { db with memos := db.memos.filter (fun m => !(m.id == memoId)) }) ∧
    (db.memos.find? (fun x => x.id == memoId) = none →
      deleteMemo db memoId adminId = .error "Memo not found") ∧
    (∀ m, db.memos.find? (fun x => x.id == memoId) = some m →
      db.users.find? (fun x => x.id == adminId) = none →
      deleteMemo db memoId adminId = .error "Admin not found") ∧
    (∀ m a, db.memos.find? (fun x => x.id == memoId) = some m →
      db.users.find? (fun x => x.id == adminId) = some a →
      m.createdById ≠ adminId → a.role ≠ "SUPER_ADMIN" →
      deleteMemo db memoId adminId = .error "Unauthorized to delete this memo") := by
  refine ⟨?_, ?_, ?_, ?_⟩
  · rintro ⟨m, a, hm, ha, hauth⟩
    unfold deleteMemo
    rw [hm, ha]
    have : (m.createdById != adminId && a.role != "SUPER_ADMIN") = false := by
      rcases hauth with h | h <;> simp [h]
    simp [this]
  · intro hm; unfold deleteMemo; rw [hm]
  · intro m hm ha; unfold deleteMemo; rw [hm, ha]
  · intro m a hm ha hcre hrole
    unfold deleteMemo
    rw [hm, ha]
    have : (m.createdById != adminId && a.role != "SUPER_ADMIN") = true := by
      simp [hcre, hrole]
    simp [this]

/-- Concrete memo database used by the `deleteMemo` witness. -/
def memoWitnessDb : MemoDb :=
  { users := [⟨"a1", "a@x.it", "Anna", "ADMIN", "h1"⟩,
              ⟨"s1", "s@x.it", "Sven", "SUPER_ADMIN", "h2"⟩],
    memos := [⟨"m1", "WARNING", "note", "u9", "a1"⟩] }

/-- Witness for C7: the creator `a1` really deletes memo `m1`. -/
theorem deleteMemo_spec_witness :
    deleteMemo memoWitnessDb "m1" "a1" =
      .ok { memoWitnessDb with
            memos := memoWitnessDb.memos.filter (fun m => !(m.id == "m1")) } :=
  (deleteMemo_spec memoWitnessDb "m1" "a1").1
    ⟨⟨"m1", "WARNING", "note", "u9", "a1"⟩,
     ⟨"a1", "a@x.it", "Anna", "ADMIN", "h1"⟩,
     by decide, by decide, Or.inl rfl⟩

/-- **C3.** For an existing media row of type `VIDEO`,
`VideoProcessingService.processVideo` writes `PROCESSING` first; it
errors exactly when the file lookup, metadata extraction or the final
record update fails, writing `PROCESSING, FAILED` in that case; on
success it writes `COMPLETED` for an `ADMIN`/`SUPER_ADMIN` uploader
and `PENDING` otherwise; every written status is one of the four enum
values; and the run's writes and outcome do not depend on whether the
thumbnail step fails. -/
theorem processVideo_status_transitions (m : MediaRecord) (env : VideoEnv)
    (hv : m.mediaType = "VIDEO") :
    ((processVideo (some m) env).statusWrites.head? = some .PROCESSING) ∧
    ((env.fileExists = false ∨ env.metadataOk = false ∨ env.finalUpdateOk = false) →
      (processVideo (some m) env).statusWrites = [.PROCESSING, .FAILED] ∧
      ∃ e, (processVideo (some m) env).result = .error e) ∧
    (env.fileExists = true → env.metadataOk = true → env.finalUpdateOk = true →
      (processVideo (some m) env).result = .ok () ∧
      ((m.uploaderRole = some "ADMIN" ∨ m.uploaderRole = some "SUPER_ADMIN") →
        (processVideo (some m) env).statusWrites = [.PROCESSING, .COMPLETED]) ∧
      (m.uploaderRole ≠ some "ADMIN" → m.uploaderRole ≠ some "SUPER_ADMIN" →
        (processVideo (some m) env).statusWrites = [.PROCESSING, .PENDING])) ∧
    (∀ s ∈ (processVideo (some m) env).statusWrites,
      s = .PROCESSING ∨ s = .COMPLETED ∨ s = .PENDING ∨ s = .FAILED) ∧
    ((processVideo (some m) { env with thumbnailOk := true }).statusWrites =
        (processVideo (some m) { env with thumbnailOk := false }).statusWrites ∧
     (processVideo (some m) { env with thumbnailOk := true }).result =
        (processVideo (some m) { env with thumbnailOk := false }).result) := by
  obtain ⟨fe, md, th, fu⟩ := env
  have hv' : (m.mediaType != "VIDEO") = false := by simp [hv]
  refine ⟨?_, ?_, ?_, ?_, ?_⟩
  · cases fe <;> cases md <;> cases fu <;> simp [processVideo, hv']
  · cases fe <;> cases md <;> cases fu <;>
      (rintro (h | h | h) <;> simp_all [processVideo, hv'])
  · intro h1 h2 h3
    subst h1; subst h2; subst h3
    refine ⟨by simp [processVideo, hv'], ?_, ?_⟩
    · rintro (h | h) <;> simp [processVideo, hv', h]
    · intro h1 h2
      have : (m.uploaderRole == some "ADMIN" || m.uploaderRole == some "SUPER_ADMIN") = false := by
        simp [h1, h2]
      simp [processVideo, hv', this]
  · intro s _hs
    cases s <;> simp
  · cases fe <;> cases md <;> cases fu <;> simp [processVideo, hv']

/-- Concrete inputs for the C3 witness. -/
def videoWitnessMedia : MediaRecord :=
  ⟨"med1", "VIDEO", "/uploads/videos/a.mp4", .PENDING, some "EDITOR"⟩

/-- Witness for C3: a successful run of `processVideo` for a
non-admin uploader writes `PROCESSING` then `PENDING`. -/
theorem processVideo_status_transitions_witness :
    (processVideo (some videoWitnessMedia) ⟨true, true, true, true⟩).statusWrites.head?
        = some .PROCESSING ∧
    (processVideo (some videoWitnessMedia) ⟨true, true, true, true⟩).result = .ok () ∧
    (processVideo (some videoWitnessMedia) ⟨true, true, true, true⟩).statusWrites
        = [.PROCESSING, .PENDING] :=
  have h := processVideo_status_transitions videoWitnessMedia ⟨true, true, true, true⟩ rfl
  ⟨h.1,
   (h.2.2.1 rfl rfl rfl).1,
   (h.2.2.1 rfl rfl rfl).2.2 (by decide) (by decide)⟩

/-- Per-pair statement used by C5: the updated ad keeps every field of
the original except the named counter. -/
def incrImpressionsOnly (adId : String) (p : Ad × Ad) : Prop :=
  (p.1.id = p.2.id ∧ p.1.title = p.2.title ∧ p.1.adType = p.2.adType ∧
   p.1.position = p.2.position ∧ p.1.status = p.2.status ∧
   p.1.startDate = p.2.startDate ∧ p.1.endDate = p.2.endDate ∧
   p.1.clicks = p.2.clicks ∧ p.1.isPaid = p.2.isPaid ∧
   p.1.price = p.2.price ∧ p.1.advertiserId = p.2.advertiserId) ∧
  (p.2.id = adId → p.1.impressions = p.2.impressions + 1) ∧
  (p.2.id ≠ adId → p.1.impressions = p.2.impressions)

/-- Per-pair statement used by C5 for clicks. -/
def incrClicksOnly (adId : String) (p : Ad × Ad) : Prop :=
  (p.1.id = p.2.id ∧ p.1.title = p.2.title ∧ p.1.adType = p.2.adType ∧
   p.1.position = p.2.position ∧ p.1.status = p.2.status ∧
   p.1.startDate = p.2.startDate ∧ p.1.endDate = p.2.endDate ∧
   p.1.impressions = p.2.impressions ∧ p.1.isPaid = p.2.isPaid ∧
   p.1.price = p.2.price ∧ p.1.advertiserId = p.2.advertiserId) ∧
  (p.2.id = adId → p.1.clicks = p.2.clicks + 1) ∧
  (p.2.id ≠ adId → p.1.clicks = p.2.clicks)

lemma map_zip_self {α : Type} (f : α → α) (l : List α) :
    (l.map f).zip l = l.map (fun a => (f a, a)) := by
  induction l with
  | nil => simp
  | cons a t ih => simp [ih]

/-- **C5.** For an existing ad id, `AdService.trackImpression`
increments exactly the `impressions` counter of ads with that id and
`AdService.trackClick` exactly the `clicks` counter, leaving every
other field and every other ad untouched, and both succeed whether or
not the deferred GA4 dispatch fails (only the delivery flag differs). -/
theorem track_increments_only (db : List Ad) (adId : String) (ga4Fails : Bool)
    (h : db.any (fun ad => ad.id == adId) = true) :
    (∃ tr : TrackResult,
      trackImpression db adId ga4Fails = .ok tr ∧
      tr.ga4Delivered = !ga4Fails ∧
      tr.db.length = db.length ∧
      ∀ p ∈ tr.db.zip db, incrImpressionsOnly adId p) ∧
    (∃ tr : TrackResult,
      trackClick db adId ga4Fails = .ok tr ∧
      tr.ga4Delivered = !ga4Fails ∧
      tr.db.length = db.length ∧
      ∀ p ∈ tr.db.zip db, incrClicksOnly adId p) := by
  constructor
  · have hall : ∀ p ∈ (db.map (fun ad =>
        if ad.id == adId then { ad with impressions := ad.impressions + 1 } else ad)).zip db,
        incrImpressionsOnly adId p := by
      rw [map_zip_self]
      intro p hp
      obtain ⟨ad, _had, rfl⟩ := List.mem_map.1 hp
      by_cases hid : ad.id = adId
      · simp [incrImpressionsOnly, hid]
      · simp [incrImpressionsOnly, hid]
    refine ⟨⟨db.map (fun ad =>
        if ad.id == adId then { ad with impressions := ad.impressions + 1 } else ad),
        !ga4Fails⟩, ?_, rfl, by simp, hall⟩
    unfold trackImpression
    rw [h]; simp
  · have hall : ∀ p ∈ (db.map (fun ad =>
        if ad.id == adId then { ad with clicks := ad.clicks + 1 } else ad)).zip db,
        incrClicksOnly adId p := by
      rw [map_zip_self]
      intro p hp
      obtain ⟨ad, _had, rfl⟩ := List.mem_map.1 hp
      by_cases hid : ad.id = adId
      · simp [incrClicksOnly, hid]
      · simp [incrClicksOnly, hid]
    refine ⟨⟨db.map (fun ad =>
        if ad.id == adId then { ad with clicks := ad.clicks + 1 } else ad),
        !ga4Fails⟩, ?_, rfl, by simp, hall⟩
    unfold trackClick
    rw [h]; simp

/-- Concrete ad used by several witnesses. -/
def wAd : Ad :=
  { id := "ad1", title := "Sale", adType := "BANNER_TOP", position := some "HEADER",
    status := "ACTIVE", startDate := 0, endDate := 1000, impressions := 4,
    clicks := 2, isPaid := true, price := 10, advertiserId := some "adv1" }

/-- Witness for C5 on a one-ad table, with a failing GA4 dispatch. -/
theorem track_increments_only_witness :
    ∃ tr : TrackResult,
      trackImpression [wAd] "ad1" true = .ok tr ∧
      tr.ga4Delivered = !true ∧
      tr.db.length = [wAd].length ∧
      ∀ p ∈ tr.db.zip [wAd], incrImpressionsOnly "ad1" p :=
  (track_increments_only [wAd] "ad1" true (by decide)).1

lemma find_isSome_iff (p : Ad → Bool) (l : List Ad) :
    (l.find? p).isSome = true ↔ ∃ ad ∈ l, p ad = true := by
  induction l with
  | nil => simp
  | cons a t ih =>
      by_cases ha : p a = true
      · simp [List.find?, ha]
      · simp only [List.find?, Bool.not_eq_true] at ha ⊢
        rw [ha]
        simp only [ih, List.mem_cons]
        constructor
        · rintro ⟨ad, hmem, hp⟩; exact ⟨ad, Or.inr hmem, hp⟩
        · rintro ⟨ad, hmem | hmem, hp⟩
          · subst hmem; rw [hp] at ha; cases ha
          · exact ⟨ad, hmem, hp⟩

/-- An ad with a reversed date range (reachable through `updateAd`,
which validates the order only when both dates change at once). -/
def revAd : Ad :=
  { id := "rev", title := "Reversed", adType := "BANNER_TOP", position := none,
    status := "ACTIVE", startDate := 10, endDate := 1, impressions := 0,
    clicks := 0, isPaid := true, price := 5, advertiserId := some "adv1" }

/-- **C1 (counterexample).** For the query interval `[2, 3]`
(`startDate <= endDate`) and an existing `ACTIVE` ad with the reversed
range `[10, 1]`, `checkBookingConflict` reports a conflict through its
contained-case although the ad does not satisfy the plain overlap
condition, so the claimed equivalence of the four-case disjunction
with `existing.startDate <= endDate AND existing.endDate >= startDate`
fails, and `isConflict` is `true` with no overlapping ad present. -/
theorem checkBookingConflict_counterexample :
    ((2 : Int) ≤ 3) ∧
    (checkBookingConflict [revAd] 2 3 none none).1 = true ∧
    plainOverlap 2 3 revAd.startDate revAd.endDate = false ∧
    overlapFourCases 2 3 revAd.startDate revAd.endDate = true := by
  decide

/-- **C1 (amended).** When every existing ad additionally has a
well-formed range (`startDate <= endDate`), `checkBookingConflict`
reports a conflict iff some ad other than the excluded one has status
`ACTIVE` or `PENDING`, has the given position (when a truthy position
is given) and overlaps the query interval in the plain sense; and on
well-formed existing ranges the four-case disjunction coincides with
the plain overlap condition. -/
theorem checkBookingConflict_amended (db : List Ad) (qs qe : Int)
    (pos ex : Option String) (hq : qs ≤ qe)
    (hwf : ∀ ad ∈ db, ad.startDate ≤ ad.endDate) :
    ((checkBookingConflict db qs qe pos ex).1 = true ↔
      ∃ ad ∈ db,
        (ad.status = "ACTIVE" ∨ ad.status = "PENDING") ∧
        (jsTruthy pos = true → ad.position = pos) ∧
        (∀ e, ex = some e → ad.id ≠ e) ∧
        ad.startDate ≤ qe ∧ qs ≤ ad.endDate) ∧
    (∀ s e : Int, s ≤ e →
      overlapFourCases qs qe s e = plainOverlap qs qe s e) := by
  constructor
  · have hfst : (checkBookingConflict db qs qe pos ex).1 = true ↔
        (db.find? (conflictWhereMatches qs qe pos ex)).isSome = true := by
      unfold checkBookingConflict
      rcases db.find? (conflictWhereMatches qs qe pos ex) with _ | ad <;> simp
    rw [hfst, find_isSome_iff]
    constructor
    · rintro ⟨ad, hmem, hmatch⟩
      refine ⟨ad, hmem, ?_⟩
      have hw := hwf ad hmem
      unfold conflictWhereMatches overlapFourCases at hmatch
      simp only [Bool.and_eq_true, Bool.or_eq_true, beq_iff_eq, decide_eq_true_eq] at hmatch
      obtain ⟨⟨⟨hst, hfour⟩, hpos⟩, hex⟩ := hmatch
      refine ⟨hst, ?_, ?_, ?_⟩
      · intro ht
        rw [ht] at hpos
        simpa using hpos
      · intro e he
        subst he
        simpa using hex
      · omega
    · rintro ⟨ad, hmem, hst, hpos, hex, hov1, hov2⟩
      refine ⟨ad, hmem, ?_⟩
      unfold conflictWhereMatches overlapFourCases
      simp only [Bool.and_eq_true, Bool.or_eq_true, beq_iff_eq, decide_eq_true_eq]
      refine ⟨⟨⟨hst, by omega⟩, ?_⟩, ?_⟩
      · rcases hjt : jsTruthy pos with _ | _
        · simp
        · simp [hpos hjt]
      · rcases ex with _ | e
        · simp
        · simpa using hex e rfl
  · intro s e hse
    unfold overlapFourCases plainOverlap
    apply Bool.eq_iff_iff.mpr
    constructor <;> intro hx <;>
      simp only [Bool.and_eq_true, Bool.or_eq_true, decide_eq_true_eq] at hx ⊢ <;> omega

/-- Witness for the amended C1: a well-formed `ACTIVE` ad overlapping
the query interval is reported as a conflict. -/
theorem checkBookingConflict_amended_witness :
    (checkBookingConflict [wAd] 500 2000 (some "HEADER") none).1 = true :=
  ((checkBookingConflict_amended [wAd] 500 2000 (some "HEADER") none
      (by decide) (by decide)).1).2
    ⟨wAd, by decide, by decide, by decide, by decide, by decide, by decide⟩

lemma selectLoop_mem : ∀ (l : List Ad) (r : Rat) (a : Ad),
    selectLoop l r = some a → a ∈ l := by
  intro l
  induction l with
  | nil => intro r a h; simp [selectLoop] at h
  | cons x t ih =>
      intro r a h
      unfold selectLoop at h
      by_cases hbr : r - adWeight x ≤ 0
      · rw [if_pos hbr] at h
        cases h
        exact List.mem_cons_self x t
      · rw [if_neg hbr] at h
        exact List.mem_cons_of_mem x (ih _ a h)

lemma runningSum_zero (a : Ad) (t : List Ad) :
    runningSum (a :: t) 0 = adWeight a := by
  simp [runningSum]

lemma runningSum_succ (a : Ad) (t : List Ad) (j : Nat) :
    runningSum (a :: t) (j + 1) = adWeight a + runningSum t j := by
  simp [runningSum]

lemma totalWeight_cons (a : Ad) (t : List Ad) :
    totalWeight (a :: t) = adWeight a + totalWeight t := by
  simp [totalWeight]

/-- The selection loop of `getAds` breaks exactly at the first index
whose running weight sum reaches the drawn value. -/
lemma selectLoop_break : ∀ (l : List Ad) (r : Rat), l ≠ [] → r < totalWeight l →
    ∃ (i : Nat) (hi : i < l.length),
      selectLoop l r = some (l.get ⟨i, hi⟩) ∧
      r ≤ runningSum l i ∧ ∀ j, j < i → runningSum l j < r := by
  intro l
  induction l with
  | nil => intro r h; exact absurd rfl h
  | cons a t ih =>
      intro r _ hlt
      by_cases hbr : r - adWeight a ≤ 0
      · refine ⟨0, by simp, ?_, ?_, ?_⟩
        · unfold selectLoop
          rw [if_pos hbr]
          rfl
        · rw [runningSum_zero]; linarith
        · intro j hj; omega
      · push_neg at hbr
        rcases ht : t with _ | ⟨b, t'⟩
        · exfalso
          rw [ht, totalWeight_cons] at hlt
          simp [totalWeight] at hlt
          linarith
        · rw [← ht]
          have htne : t ≠ [] := by rw [ht]; simp
          have hlt' : r - adWeight a < totalWeight t := by
            rw [totalWeight_cons] at hlt; linarith
          obtain ⟨i', hi', heq, hge, hprev⟩ := ih (r - adWeight a) htne hlt'
          refine ⟨i' + 1, by simpa using Nat.succ_lt_succ hi', ?_, ?_, ?_⟩
          · unfold selectLoop
            rw [if_neg (by linarith), heq]
            rfl
          · rw [runningSum_succ]; linarith
          · intro j hj
            rcases j with _ | j'
            · rw [runningSum_zero]; linarith
            · rw [runningSum_succ]
              have := hprev j' (by omega)
              linarith

lemma getAdsSlotPublic_ads_subset (db : List Ad) (slot : String) (now : Int)
    (qType : Option String) (page limit : Nat) (random : Rat) :
    ∀ ad ∈ (getAdsSlotPublic db slot now qType page limit random).ads,
      ad ∈ db.filter (slotWhereMatches slot now qType) := by
  intro ad had
  unfold getAdsSlotPublic at had
  rcases hf : db.filter (slotWhereMatches slot now qType) with _ | ⟨a0, rest⟩
  · rw [hf] at had
    simp at had
  · rw [hf] at had
    simp only at had
    rw [← hf] at had ⊢
    set matching := db.filter (slotWhereMatches slot now qType) with hmdef
    rw [hf] at had
    by_cases hsl : ((selectLoop (a0 :: rest) random).getD a0).adType == "SLIDER"
        || ((selectLoop (a0 :: rest) random).getD a0).adType == "SLIDER_TOP"
    · rw [if_pos hsl] at had
      simp only at had
      rw [hf]
      exact List.take_subset _ _ had
    · rw [if_neg hsl] at had
      simp only [List.mem_singleton] at had
      subst had
      rw [hf]
      rcases hsel : selectLoop (a0 :: rest) random with _ | a
      · simp [hsel]
      · simpa [hsel] using selectLoop_mem _ _ _ hsel

/-- **C4.** Every ad returned by a public slot-based `getAds` call has
status `ACTIVE`, a date range containing `now`, and either a position
among the slot's allowed positions or a null/empty position together
with a type among the slot's allowed types. -/
theorem getAds_public_slot_filtered (db : List Ad) (slot : String) (now : Int)
    (qType : Option String) (page limit : Nat) (random : Rat) :
    ∀ ad ∈ (getAdsSlotPublic db slot now qType page limit random).ads,
      ad.status = "ACTIVE" ∧ ad.startDate ≤ now ∧ now ≤ ad.endDate ∧
      ((∃ p ∈ slotToPositions slot, ad.position = some p) ∨
       ((ad.position = none ∨ ad.position = some "") ∧
        ad.adType ∈ slotToTypes slot)) := by
  intro ad had
  have hmem := getAdsSlotPublic_ads_subset db slot now qType page limit random ad had
  rw [List.mem_filter] at hmem
  obtain ⟨-, hmatch⟩ := hmem
  unfold slotWhereMatches at hmatch
  simp only [Bool.and_eq_true, Bool.or_eq_true, beq_iff_eq, decide_eq_true_eq,
    List.any_eq_true, Bool.not_eq_true'] at hmatch
  obtain ⟨⟨⟨⟨hst, hsd⟩, hed⟩, -⟩, hpos⟩ := hmatch
  refine ⟨hst, hsd, hed, ?_⟩
  rcases hpos with ⟨p, hp, hpe⟩ | ⟨⟨-, ht⟩, hnull⟩
  · exact Or.inl ⟨p, hp, hpe⟩
  · refine Or.inr ⟨?_, ?_⟩
    · rcases hnull with h | h
      · exact Or.inl (by simpa using h)
      · exact Or.inr (by simpa using h)
    · obtain ⟨t, htm, hte⟩ := ht
      rw [hte]; exact htm

/-- Witness for C4: a matching ad comes back and satisfies the filter
properties. -/
theorem getAds_public_slot_filtered_witness :
    wAd ∈ (getAdsSlotPublic [wAd] "HEADER" 500 none 1 10 0).ads ∧
    (wAd.status = "ACTIVE" ∧ wAd.startDate ≤ 500 ∧ (500 : Int) ≤ wAd.endDate ∧
      ((∃ p ∈ slotToPositions "HEADER", wAd.position = some p) ∨
       ((wAd.position = none ∨ wAd.position = some "") ∧
        wAd.adType ∈ slotToTypes "HEADER"))) :=
  have hm : wAd ∈ (getAdsSlotPublic [wAd] "HEADER" 500 none 1 10 0).ads := by
    norm_num [getAdsSlotPublic, slotWhereMatches, slotToPositions, slotToTypes,
      jsTruthy, selectLoop, adWeight, wAd]
  ⟨hm, getAds_public_slot_filtered [wAd] "HEADER" 500 none 1 10 0 wAd hm⟩

/-- **C2.** In a public slot query with a non-empty matching list and
a draw `random` in `[0, totalWeight)`, `getAds` selects the first ad
at which the running sum of the weights `1 / (1 + impressions)`
reaches the draw; a non-`SLIDER`/`SLIDER_TOP` selection yields exactly
that one ad with `meta.total = 1`, and a `SLIDER`/`SLIDER_TOP`
selection yields the first `limit` matching ads. -/
theorem getAds_public_slot_weighted (db : List Ad) (slot : String) (now : Int)
    (qType : Option String) (page limit : Nat) (random : Rat)
    (a0 : Ad) (rest : List Ad)
    (hm : db.filter (slotWhereMatches slot now qType) = a0 :: rest)
    (h0 : 0 ≤ random) (h1 : random < totalWeight (a0 :: rest)) :
    ∃ (i : Nat) (hi : i < (a0 :: rest).length),
      random ≤ runningSum (a0 :: rest) i ∧
      (∀ j, j < i → runningSum (a0 :: rest) j < random) ∧
      (((a0 :: rest).get ⟨i, hi⟩).adType ≠ "SLIDER" →
        ((a0 :: rest).get ⟨i, hi⟩).adType ≠ "SLIDER_TOP" →
        getAdsSlotPublic db slot now qType page limit random =
          ⟨[(a0 :: rest).get ⟨i, hi⟩], 1, page, limit⟩) ∧
      ((((a0 :: rest).get ⟨i, hi⟩).adType = "SLIDER" ∨
        ((a0 :: rest).get ⟨i, hi⟩).adType = "SLIDER_TOP") →
        getAdsSlotPublic db slot now qType page limit random =
          ⟨(a0 :: rest).take limit, (a0 :: rest).length, page, limit⟩) := by
  obtain ⟨i, hi, heq, hge, hprev⟩ :=
    selectLoop_break (a0 :: rest) random (by simp) h1
  have hval : getAdsSlotPublic db slot now qType page limit random =
      (if ((a0 :: rest).get ⟨i, hi⟩).adType == "SLIDER"
          || ((a0 :: rest).get ⟨i, hi⟩).adType == "SLIDER_TOP" then
        (⟨(a0 :: rest).take limit, (a0 :: rest).length, page, limit⟩ : SlotResult)
      else
        ⟨[(a0 :: rest).get ⟨i, hi⟩], 1, page, limit⟩) := by
    unfold getAdsSlotPublic
    rw [hm]
    simp only [heq, Option.getD_some]
  refine ⟨i, hi, hge, hprev, ?_, ?_⟩
  · intro hn1 hn2
    rw [hval, if_neg (by simp only [Bool.or_eq_true, beq_iff_eq]; tauto)]
  · intro hsl
    have hcond : (((a0 :: rest).get ⟨i, hi⟩).adType == "SLIDER"
        || ((a0 :: rest).get ⟨i, hi⟩).adType == "SLIDER_TOP") = true := by
      simp only [Bool.or_eq_true, beq_iff_eq]
      exact hsl
    rw [hval, if_pos hcond]

/-- Witness for C2: one matching ad with weight `1/5`, draw `1/10`;
the loop stops at index `0` and the single ad is returned with
`total = 1`. -/
theorem getAds_public_slot_weighted_witness :
    ((1 : Rat) / 10 ≤ runningSum [wAd] 0) ∧
    getAdsSlotPublic [wAd] "HEADER" 500 none 1 10 (1 / 10) =
      ⟨[wAd], 1, 1, 10⟩ := by
  obtain ⟨i, hi, hge, _hprev, hsingle, _⟩ :=
    getAds_public_slot_weighted [wAd] "HEADER" 500 none 1 10 (1 / 10) wAd []
      (by norm_num [slotWhereMatches, slotToPositions, slotToTypes, jsTruthy, wAd])
      (by norm_num)
      (by norm_num [totalWeight, adWeight, wAd])
  have hz : i = 0 := by
    simp only [List.length_cons, List.length_nil] at hi
    omega
  subst hz
  exact ⟨hge, hsingle (by simp [wAd]) (by simp [wAd])⟩

/-- **C8.** Every ad successfully created by `AdService.createAd`
starts no earlier than the start of the current day, ends strictly
after it starts, has a day count `ceil((end - start) / 86400000)`
between the configured minimum and maximum inclusive, has a price in
`[0, 99999999.99]` that is an integer number of cents (two decimal
places), and is `ACTIVE`/paid exactly when the creator is an
`ADMIN` or `SUPER_ADMIN` and `PENDING`/unpaid otherwise. -/
theorem createAd_invariants (db : List Ad) (minDays maxDays : Int)
    (calcPrice : String → Int → Int → Rat) (data : CreateAdInput)
    (userId : String) (role : Option String) (today : Int) (ad : Ad)
    (h : createAd db minDays maxDays calcPrice data userId role today = .ok ad) :
    today ≤ ad.startDate ∧
    ad.startDate < ad.endDate ∧
    minDays ≤ ⌈((ad.endDate - ad.startDate : Int) : Rat) / 86400000⌉ ∧
    ⌈((ad.endDate - ad.startDate : Int) : Rat) / 86400000⌉ ≤ maxDays ∧
    0 ≤ ad.price ∧ ad.price ≤ MAX_PRICE ∧
    (∃ n : Int, ad.price = (n : Rat) / 100) ∧
    ((role = some "ADMIN" ∨ role = some "SUPER_ADMIN") →
      ad.status = "ACTIVE" ∧ ad.isPaid = true) ∧
    (role ≠ some "ADMIN" → role ≠ some "SUPER_ADMIN" →
      ad.status = "PENDING" ∧ ad.isPaid = false) := by
  unfold createAd at h
  by_cases h1 : data.startDate < today
  · rw [if_pos h1] at h; cases h
  rw [if_neg h1] at h
  by_cases h2 : data.endDate ≤ data.startDate
  · rw [if_pos h2] at h; cases h
  rw [if_neg h2] at h
  by_cases h3 : (⌈((data.endDate - data.startDate : Int) : Rat) / (1000 * 3600 * 24)⌉ : Int) < minDays
  · rw [if_pos h3] at h; cases h
  rw [if_neg h3] at h
  by_cases h4 : (⌈((data.endDate - data.startDate : Int) : Rat) / (1000 * 3600 * 24)⌉ : Int) > maxDays
  · rw [if_pos h4] at h; cases h
  rw [if_neg h4] at h
  by_cases h5 : (jsTruthy data.position &&
      (checkBookingConflict db data.startDate data.endDate data.position none).1) = true
  · rw [if_pos h5] at h; cases h
  rw [if_neg h5] at h
  set priceValue : Rat :=
    (match data.price with
     | some p => p
     | none => calcPrice data.adType data.startDate data.endDate) with hpv
  by_cases h6 : priceValue < 0
  · rw [if_pos h6] at h; cases h
  rw [if_neg h6] at h
  by_cases h7 : priceValue > MAX_PRICE
  · rw [if_pos h7] at h; cases h
  rw [if_neg h7] at h
  push_neg at h1 h2 h6 h7
  rw [Except.ok.injEq] at h
  subst h
  have hp0 : (0 : Rat) ≤ (jsRound (priceValue * 100) : Rat) / 100 := by
    have hfl : (0 : Int) ≤ jsRound (priceValue * 100) := by
      unfold jsRound
      apply Int.le_floor.2
      push_cast
      linarith
    have hq : ((jsRound (priceValue * 100) : Rat)) ≥ 0 := by exact_mod_cast hfl
    positivity
  have hpM : (jsRound (priceValue * 100) : Rat) / 100 ≤ MAX_PRICE := by
    have hle : priceValue * 100 + 1 / 2 ≤ (9999999999 : Rat) + 1 / 2 := by
      have hm := h7
      unfold MAX_PRICE at hm
      linarith
    have hfloorHalf : ⌊(1 / 2 : Rat)⌋ = 0 :=
      Int.floor_eq_zero_iff.mpr (by constructor <;> norm_num)
    have hfl : jsRound (priceValue * 100) ≤ (9999999999 : Int) := by
      unfold jsRound
      calc ⌊priceValue * 100 + 1 / 2⌋ ≤ ⌊(9999999999 : Rat) + 1 / 2⌋ :=
            Int.floor_le_floor hle
        _ = 9999999999 := by
            rw [show ((9999999999 : Rat)) = ((9999999999 : Int) : Rat) by norm_num,
              Int.floor_int_add, hfloorHalf]
            norm_num
    have hq : ((jsRound (priceValue * 100) : Rat)) ≤ 9999999999 := by exact_mod_cast hfl
    unfold MAX_PRICE
    linarith
  have hdays : ((1000 * 3600 * 24 : Rat)) = 86400000 := by norm_num
  have h3' : minDays ≤ ⌈((data.endDate - data.startDate : Int) : Rat) / 86400000⌉ := by
    rw [← hdays]
    exact not_lt.mp h3
  have h4' : ⌈((data.endDate - data.startDate : Int) : Rat) / 86400000⌉ ≤ maxDays := by
    rw [← hdays]
    exact not_lt.mp h4
  refine ⟨h1, h2, h3', h4', hp0, hpM,
    ⟨jsRound (priceValue * 100), rfl⟩, ?_, ?_⟩
  · intro hrole
    have hb : (role == some "ADMIN" || role == some "SUPER_ADMIN") = true := by
      rcases hrole with hh | hh <;> simp [hh]
    show (if (role == some "ADMIN" || role == some "SUPER_ADMIN") = true
        then "ACTIVE" else "PENDING") = "ACTIVE" ∧
      (role == some "ADMIN" || role == some "SUPER_ADMIN") = true
    rw [hb]
    exact ⟨rfl, rfl⟩
  · intro hr1 hr2
    have hb : (role == some "ADMIN" || role == some "SUPER_ADMIN") = false := by
      simp [hr1, hr2]
    show (if (role == some "ADMIN" || role == some "SUPER_ADMIN") = true
        then "ACTIVE" else "PENDING") = "PENDING" ∧
      (role == some "ADMIN" || role == some "SUPER_ADMIN") = false
    rw [hb]
    exact ⟨rfl, rfl⟩

/-- Concrete input for the C8 witness: a three-day ad with an explicit
price of 10, created by a plain advertiser. -/
def c8Data : CreateAdInput :=
  ⟨"Launch", "BANNER_TOP", none, 0, 259200000, some 10⟩

/-- The ad record produced by `createAd` on `c8Data`. -/
def c8Ad : Ad :=
  { id := "new-ad", title := "Launch", adType := "BANNER_TOP", position := none,
    status := "PENDING", startDate := 0, endDate := 259200000, impressions := 0,
    clicks := 0, isPaid := false, price := 10, advertiserId := some "u1" }

lemma createAd_c8_run :
    createAd [] 1 30 (fun _ _ _ => 10) c8Data "u1" none 0 = .ok c8Ad := by
  have hceil : (⌈((259200000 - 0 : Int) : Rat) / (1000 * 3600 * 24)⌉ : Int) = 3 := by
    rw [Int.ceil_eq_iff] <;> constructor <;> norm_num
  have hfloor : jsRound ((1000 : Rat)) = 1000 := by
    unfold jsRound
    rw [Int.floor_eq_iff] <;> constructor <;> norm_num
  unfold createAd
  simp only [c8Data, jsTruthy, MAX_PRICE, hceil]
  norm_num [hfloor, c8Ad]

/-- Witness for C8: the theorem's conclusions hold on the concrete
successful run `createAd_c8_run`. -/
theorem createAd_invariants_witness :
    (0 : Int) ≤ c8Ad.startDate ∧
    c8Ad.startDate < c8Ad.endDate ∧
    (1 : Int) ≤ ⌈((c8Ad.endDate - c8Ad.startDate : Int) : Rat) / 86400000⌉ ∧
    ⌈((c8Ad.endDate - c8Ad.startDate : Int) : Rat) / 86400000⌉ ≤ (30 : Int) ∧
    0 ≤ c8Ad.price ∧ c8Ad.price ≤ MAX_PRICE ∧
    (∃ n : Int, c8Ad.price = (n : Rat) / 100) ∧
    (((none : Option String) = some "ADMIN" ∨ (none : Option String) = some "SUPER_ADMIN") →
      c8Ad.status = "ACTIVE" ∧ c8Ad.isPaid = true) ∧
    ((none : Option String) ≠ some "ADMIN" → (none : Option String) ≠ some "SUPER_ADMIN" →
      c8Ad.status = "PENDING" ∧ c8Ad.isPaid = false) :=
  createAd_invariants [] 1 30 (fun _ _ _ => 10) c8Data "u1" none 0 c8Ad createAd_c8_run

lemma samePublic_fields {u v : UserFull} (h : samePublic u v) :
    u.id = v.id ∧ u.email = v.email ∧ u.name = v.name ∧ u.role = v.role ∧
    u.avatar = v.avatar ∧ u.isActive = v.isActive ∧
    u.allowedCategories = v.allowedCategories := by
  unfold samePublic stripPassword at h
  simpa [PublicUser.mk.injEq] using h

lemma find?_samePublic {db1 db2 : List UserFull}
    (h : List.Forall₂ samePublic db1 db2) (id : String) :
    (db1.find? (fun u => u.id == id) = none ∧
     db2.find? (fun u => u.id == id) = none) ∨
    (∃ u v, db1.find? (fun u => u.id == id) = some u ∧
      db2.find? (fun u => u.id == id) = some v ∧ samePublic u v) := by
  induction h with
  | nil => left; simp
  | @cons a b l1 l2 hab _htail ih =>
      have hid : a.id = b.id := (samePublic_fields hab).1
      by_cases hcase : (a.id == id) = true
      · have hcaseb : (b.id == id) = true := by rw [← hid]; exact hcase
        right
        refine ⟨a, b, ?_, ?_, hab⟩
        · simp only [List.find?, hcase]
        · simp only [List.find?, hcaseb]
      · have hcase1 : (a.id == id) = false := by simpa using hcase
        have hcaseb : (b.id == id) = false := by rw [← hid]; exact hcase1
        simpa only [List.find?, hcase1, hcaseb] using ih

lemma any_email_samePublic {db1 db2 : List UserFull}
    (h : List.Forall₂ samePublic db1 db2) (e : String) :
    db1.any (fun u => u.email == e) = db2.any (fun u => u.email == e) := by
  induction h with
  | nil => rfl
  | @cons a b l1 l2 hab _htail ih =>
      have he : a.email = b.email := (samePublic_fields hab).2.1
      simp only [List.any_cons, he, ih]

/-- **C10.** `getUserById`, `createUser` and `updateUser` return
password-free projections (`PublicUser` has no password field), and
their results are identical on any two user tables whose records
differ only in their password hashes. -/
theorem userService_no_password_leak (db1 db2 : List UserFull)
    (h : List.Forall₂ samePublic db1 db2) :
    (∀ flag id, getUserById db1 flag id = getUserById db2 flag id) ∧
    (∀ catDb hash data, createUser db1 catDb hash data = createUser db2 catDb hash data) ∧
    (∀ catDb id data, updateUser db1 catDb id data = updateUser db2 catDb id data) := by
  refine ⟨?_, ?_, ?_⟩
  · intro flag id
    unfold getUserById
    rcases find?_samePublic h id with ⟨h1, h2⟩ | ⟨u, v, h1, h2, huv⟩
    · rw [h1, h2]
    · rw [h1, h2]
      obtain ⟨hid, hem, hnm, hrl, hav, hac, hcat⟩ := samePublic_fields huv
      cases flag <;>
        simp [stripPassword, hid, hem, hnm, hrl, hav, hac, hcat]
  · intro catDb hash data
    unfold createUser
    rw [any_email_samePublic h data.email]
  · intro catDb id data
    unfold updateUser
    rcases find?_samePublic h id with ⟨h1, h2⟩ | ⟨u, v, h1, h2, huv⟩
    · rw [h1, h2]
    · rw [h1, h2]
      obtain ⟨hid, hem, hnm, hrl, hav, hac, hcat⟩ := samePublic_fields huv
      simp [stripPassword, hid, hem, hnm, hrl, hav, hac, hcat]

/-- Two user rows identical except for the stored password hash. -/
def wUser1 : UserFull :=
  ⟨"u1", "e@x.it", "Eva", "EDITOR", "hash-one", none, true, ["c1"]⟩

/-- Same row with a different password hash. -/
def wUser2 : UserFull :=
  ⟨"u1", "e@x.it", "Eva", "EDITOR", "hash-two", none, true, ["c1"]⟩

/-- Witness for C10: on the two one-row tables differing only in the
hash, `getUserById` returns identical password-free results. -/
theorem userService_no_password_leak_witness :
    getUserById [wUser1] false "u1" = getUserById [wUser2] false "u1" ∧
    createUser [wUser1] ["c1"] (fun s => s ++ "!") ⟨"n@x.it", "Nia", "EDITOR", "pw", none, true, none⟩
      = createUser [wUser2] ["c1"] (fun s => s ++ "!") ⟨"n@x.it", "Nia", "EDITOR", "pw", none, true, none⟩ ∧
    updateUser [wUser1] ["c1"] "u1" ⟨none, some "Eva B", none, none, none, none, none⟩
      = updateUser [wUser2] ["c1"] "u1" ⟨none, some "Eva B", none, none, none, none, none⟩ :=
  have h := userService_no_password_leak [wUser1] [wUser2]
    (List.Forall₂.cons rfl List.Forall₂.nil)
  ⟨h.1 false "u1",
   h.2.1 ["c1"] (fun s => s ++ "!") ⟨"n@x.it", "Nia", "EDITOR", "pw", none, true, none⟩,
   h.2.2 ["c1"] "u1" ⟨none, some "Eva B", none, none, none, none, none⟩⟩

/-- A URL in which the production domain is duplicated three times;
`normalizeUrl` strips only one duplicate per call. -/
def tripleDup : String :=
  "https://news-backend.hmstech.org/https://news-backend.hmstech.org/https://news-backend.hmstech.org/x"

/-- **C9 (counterexample).** `getAbsoluteUrl` is not idempotent: on a
URL with the production domain duplicated three times, one application
strips only one duplicate, and a second application strips another, so
`getAbsoluteUrl (getAbsoluteUrl s)` differs from `getAbsoluteUrl s`
(using the production configuration; the input never consults the
backend URL). -/
theorem getAbsoluteUrl_counterexample :
    getAbsoluteUrl "https://news-backend.hmstech.org" true
        (getAbsoluteUrl "https://news-backend.hmstech.org" true (some tripleDup)) ≠
      getAbsoluteUrl "https://news-backend.hmstech.org" true (some tripleDup) := by
  decide

lemma startsWithL_append_self : ∀ (p t : List Char), startsWithL (p ++ t) p = true := by
  intro p
  induction p with
  | nil => intro t; simp [startsWithL]
  | cons c cs ih =>
      intro t
      simp only [List.cons_append, startsWithL, beq_self_eq_true, Bool.true_and]
      exact ih t

lemma startsWithL_append_left : ∀ (p a t : List Char),
    startsWithL a p = true → startsWithL (a ++ t) p = true := by
  intro p
  induction p with
  | nil => intro a t _; simp [startsWithL]
  | cons q qs ih =>
      intro a t h
      cases a with
      | nil => cases h
      | cons c cs =>
          simp only [startsWithL, Bool.and_eq_true] at h
          simp only [List.cons_append, startsWithL, Bool.and_eq_true]
          exact ⟨h.1, ih cs t h.2⟩

lemma startsWithL_exists : ∀ (p s : List Char),
    startsWithL s p = true → ∃ t, s = p ++ t := by
  intro p
  induction p with
  | nil => intro s _; exact ⟨s, rfl⟩
  | cons q qs ih =>
      intro s h
      cases s with
      | nil => cases h
      | cons c cs =>
          simp only [startsWithL, Bool.and_eq_true, beq_iff_eq] at h
          obtain ⟨t, ht⟩ := ih cs h.2
          exact ⟨t, by simp [h.1, ht]⟩

lemma replaceFirstL_startsWith (s pat rep : List Char)
    (h : startsWithL s pat = true) :
    replaceFirstL s pat rep = rep ++ s.drop pat.length := by
  unfold replaceFirstL
  rw [if_pos h]

lemma https_not_http (s : List Char) (h : startsWithL s httpsL = true) :
    startsWithL s httpL = false := by
  obtain ⟨t, rfl⟩ := startsWithL_exists httpsL s h
  rfl

lemma backendBase_scheme (b : String) (p : Bool)
    (hb : p = true ∨ startsWithL (stripTrailingSlash b.data) httpL = true ∨
      startsWithL (stripTrailingSlash b.data) httpsL = true) :
    startsWithL (backendBase b p) httpL = true ∨
    startsWithL (backendBase b p) httpsL = true := by
  unfold backendBase backendB1 backendB0
  set b0 := stripTrailingSlash b.data with hb0
  by_cases hf : (p || b0.isEmpty ||
      containsL b0 "localhost".data ||
      containsL b0 "127.0.0.1".data ||
      startsWithL b0 "http://localhost".data ||
      startsWithL b0 "http://127.0.0.1".data ||
      (containsL b0 prodHostL && startsWithL b0 httpL)) = true
  · rw [if_pos hf]
    rw [if_neg (by decide :
      ¬(containsL prodDomainL prodHostL && startsWithL prodDomainL httpL) = true)]
    right
    decide
  · rw [if_neg hf]
    rcases hb with hp | hh | hh
    · exact absurd (by rw [hp]; rfl) hf
    · by_cases hrep : (containsL b0 prodHostL && startsWithL b0 httpL) = true
      · rw [if_pos hrep, replaceFirstL_startsWith _ _ _ hh]
        exact Or.inr (startsWithL_append_self httpsL _)
      · rw [if_neg hrep]
        exact Or.inl hh
    · have hnot : startsWithL b0 httpL = false := https_not_http _ hh
      rw [if_neg (by simp [hnot])]
      exact Or.inr hh

/-- **C9 (amended).** `getAbsoluteUrl` returns `null` exactly on a
null/undefined/empty input; every non-null result starts with
`http://` or `https://` provided the configuration does (production
mode, or a `BACKEND_URL` that starts with `http://` or `https://` —
the env module is outside this repository's sources); and it is
idempotent on every value that is already fully normalized
(`normalizeUrl`-fixed) and either HTTPS-prefixed or HTTP-prefixed
without containing the production host — the triple-duplicated URL of
the counterexample is mapped to a value that is not normalized, which
is exactly how idempotency fails in general. -/
theorem getAbsoluteUrl_amended :
    (∀ b p, getAbsoluteUrl b p none = none) ∧
    (∀ b p, getAbsoluteUrl b p (some "") = none) ∧
    (∀ b p s, s ≠ "" → getAbsoluteUrl b p (some s) ≠ none) ∧
    (∀ (b : String) (p : Bool) (s r : String),
      (p = true ∨ startsWithL (stripTrailingSlash b.data) httpL = true ∨
        startsWithL (stripTrailingSlash b.data) httpsL = true) →
      getAbsoluteUrl b p (some s) = some r →
      startsWithL r.data httpL = true ∨ startsWithL r.data httpsL = true) ∧
    (∀ (b : String) (p : Bool) (r : String),
      normalizeUrl r.data = r.data →
      (startsWithL r.data httpsL = true ∨
        (startsWithL r.data httpL = true ∧ containsL r.data prodHostL = false)) →
      getAbsoluteUrl b p (some r) = some r) := by
  refine ⟨fun b p => rfl, fun b p => by simp [getAbsoluteUrl], ?_, ?_, ?_⟩
  · intro b p s h
    have hse : (s == "") = false := by simpa using h
    simp only [getAbsoluteUrl, hse, Bool.false_eq_true, if_false]
    split <;> simp
  · intro b p s r hb heq
    simp only [getAbsoluteUrl] at heq
    by_cases hse : (s == "") = true
    · rw [if_pos hse] at heq; cases heq
    rw [if_neg hse] at heq
    set n := normalizeUrl s.data with hn
    by_cases habs : (startsWithL n httpL || startsWithL n httpsL) = true
    · rw [if_pos habs] at heq
      rw [Option.some.injEq] at heq
      subst heq
      by_cases hrep : (containsL n prodHostL && startsWithL n httpL) = true
      · rw [if_pos hrep]
        rw [Bool.and_eq_true] at hrep
        rw [replaceFirstL_startsWith _ _ _ hrep.2]
        exact Or.inr (startsWithL_append_self httpsL _)
      · rw [if_neg hrep]
        rw [Bool.or_eq_true] at habs
        exact habs
    · rw [if_neg habs] at heq
      rw [Option.some.injEq] at heq
      subst heq
      rcases backendBase_scheme b p hb with hh | hh
      · exact Or.inl (startsWithL_append_left _ _ _ hh)
      · exact Or.inr (startsWithL_append_left _ _ _ hh)
  · intro b p r hnorm hfix
    have hne : (r == "") = false := by
      rcases hfix with hh | ⟨hh, -⟩ <;>
      · rcases hr : r.data with _ | ⟨c, cs⟩
        · rw [hr] at hh; cases hh
        · have : r ≠ "" := by
            intro hcon
            rw [hcon] at hr
            cases hr
          simpa using this
    simp only [getAbsoluteUrl, hne, Bool.false_eq_true, if_false, hnorm]
    have habs : (startsWithL r.data httpL || startsWithL r.data httpsL) = true := by
      rcases hfix with hh | ⟨hh, -⟩ <;> simp [hh]
    rw [if_pos habs]
    rcases hfix with hh | ⟨-, hh⟩
    · rw [if_neg (by simp [https_not_http _ hh])]
    · rw [if_neg (by simp [hh])]

/-- Witness for the amended C9: a relative upload path against an
HTTPS backend is prefixed and keeps an `https://` scheme, and an
already-normalized absolute URL on a foreign domain is a fixed
point. -/
theorem getAbsoluteUrl_amended_witness :
    (startsWithL ("https://api.example.com/uploads/a.jpg" : String).data httpL = true ∨
     startsWithL ("https://api.example.com/uploads/a.jpg" : String).data httpsL = true) ∧
    getAbsoluteUrl "https://api.example.com" false (some "https://cdn.example.com/i.png")
      = some "https://cdn.example.com/i.png" :=
  ⟨getAbsoluteUrl_amended.2.2.2.1 "https://api.example.com" false
      "uploads/a.jpg" "https://api.example.com/uploads/a.jpg"
      (Or.inr (Or.inr (by decide))) (by decide),
   getAbsoluteUrl_amended.2.2.2.2 "https://api.example.com" false
      "https://cdn.example.com/i.png" (by decide) (Or.inl (by decide))⟩

end NewsBackend
